import Mathlib

/-!
Verification of the real-time transcript state machine in
`src/components/VoiceChat.tsx` (Realtime-WebRTC).

The component keeps its state in React `useState` hooks and `useRef` cells:
`status`, `messages`, `isAiSpeaking`, `error`, `inputVolume`, the resource
refs (`pcRef`, `dcRef`, `audioElRef`, `streamRef`, `analyserRef`,
`animFrameRef`) and the partial-transcript map `partialTranscriptsRef`.
We embed all of them in one record `AppState` and translate the event
reducer `handleRealtimeEvent`, the teardown functions `cleanup` and
`disconnect`, the `dc.onmessage` / `dc.onclose` callbacks and the `catch`
block of `connect` as pure state transformers.

`new Date()` is modelled by an explicit `now : Nat` argument; the JS
`Map<string, string>` is modelled by an association list with the
`Map.get` / `Map.set` / `Map.delete` operations; resource refs are
modelled by booleans recording whether the resource is currently held.
-/

inductive Role where
  | user
  | assistant
  deriving Repr, DecidableEq

inductive ConnectionStatus where
  | disconnected
  | connecting
  | connected
  deriving Repr, DecidableEq

structure Message where
  id : String
  role : Role
  text : String
  timestamp : Nat
  deriving Repr, DecidableEq

/-- The component's state: the `useState` hooks, the resource refs (a
`Bool` records whether the ref currently holds a live resource) and the
partial-transcript accumulator `partialTranscriptsRef`. -/
structure AppState where
  status : ConnectionStatus
  messages : List Message
  isAiSpeaking : Bool
  error : Option String
  inputVolume : Nat
  pcRef : Bool
  dcRef : Bool
  audioElRef : Bool
  streamRef : Bool
  analyserRef : Bool
  animFrameRef : Bool
  partialTranscripts : List (String × String)
  deriving Repr, DecidableEq

/-- JS `Map.get`, returning `none` when the key is absent. -/
def mapGet (m : List (String × String)) (k : String) : Option String :=
  (m.find? (fun p => p.1 == k)).map (·.2)

/-- JS `Map.set`: replace the value of an existing key in place, otherwise
append the new binding. -/
def mapSet (m : List (String × String)) (k v : String) :
    List (String × String) :=
  if m.any (fun p => p.1 == k) then
    m.map (fun p => if p.1 == k then (k, v) else p)
  else
    m ++ [(k, v)]

/-- JS `Map.delete`. -/
def mapDelete (m : List (String × String)) (k : String) :
    List (String × String) :=
  m.filter (fun p => p.1 != k)

/-- The inbound realtime events the reducer's `switch` distinguishes.
`otherEvent` stands for any payload whose `type` is none of the five
recognized strings (the `switch` has no `default` branch). The `error`
event's `message` field is `Option`al because `(event.error)?.message`
may be absent. -/
inductive RTEvent where
  | audioTranscriptDelta (itemId delta : String)
  | audioTranscriptDone (itemId transcript : String)
  | inputTranscriptionCompleted (itemId transcript : String)
  | audioDone
  | errorEvent (message : Option String)
  | otherEvent (type : String)
  deriving Repr, DecidableEq

/-- JS `String.prototype.trim()`: strip leading and trailing whitespace.
(Defined over the character list so that it evaluates by kernel
reduction; Lean's own `String.trim` computes the same result through
`Substring` loops.) -/
def jsTrim (s : String) : String :=
  ⟨((s.data.dropWhile Char.isWhitespace).reverse.dropWhile
      Char.isWhitespace).reverse⟩

/-- The `findIndex`-then-copy update in the delta/done branches: replace
the `text` of the FIRST message whose `id` matches, leave everything else
(including later duplicates) untouched. -/
def updateFirst (msgs : List Message) (itemId text : String) :
    List Message :=
  match msgs with
  | [] => []
  | m :: rest =>
      if m.id == itemId then { m with text := text } :: rest
      else m :: updateFirst rest itemId text

/-- `handleRealtimeEvent` from `VoiceChat.tsx`, lines 166-253.  `now` is
the value `new Date()` would capture for a freshly appended message. -/
def handleRealtimeEvent (now : Nat) (event : RTEvent) (s : AppState) :
    AppState :=
  match event with
  | .audioTranscriptDelta itemId delta =>
      let existing := (mapGet s.partialTranscripts itemId).getD ""
      let updated := existing ++ delta
      let pts := mapSet s.partialTranscripts itemId updated
      let msgs :=
        if s.messages.any (fun m => m.id == itemId) then
          updateFirst s.messages itemId updated
        else
          s.messages ++
            [{ id := itemId, role := .assistant, text := updated,
               timestamp := now }]
      { s with partialTranscripts := pts, messages := msgs,
               isAiSpeaking := true }
  | .audioTranscriptDone itemId transcript =>
      let pts := mapDelete s.partialTranscripts itemId
      let msgs :=
        if s.messages.any (fun m => m.id == itemId) then
          updateFirst s.messages itemId transcript
        else
          s.messages ++
            [{ id := itemId, role := .assistant, text := transcript,
               timestamp := now }]
      { s with partialTranscripts := pts, messages := msgs,
               isAiSpeaking := false }
  | .inputTranscriptionCompleted itemId transcript =>
      if jsTrim transcript == "" then s
      else
        { s with messages :=
            s.messages ++
              [{ id := itemId, role := .user, text := jsTrim transcript,
                 timestamp := now }] }
  | .audioDone => { s with isAiSpeaking := false }
  | .errorEvent message =>
      let errMsg :=
        match message with
        | some t => if t == "" then "An error occurred" else t
        | none => "An error occurred"
      { s with error := some errMsg }
  | .otherEvent _ => s

/-- `dc.onmessage` (lines 126-128): `JSON.parse` the raw payload and feed
it to the reducer.  A payload is modelled as `none` when it is not valid
JSON, in which case `JSON.parse` throws and the exception escapes the
callback (there is no try/catch), before any state is touched. -/
def dcOnMessage (now : Nat) (payload : Option RTEvent) (s : AppState) :
    Except String AppState :=
  match payload with
  | none => .error "SyntaxError: Unexpected token in JSON"
  | some event => .ok (handleRealtimeEvent now event s)

/-- `dc.onclose` (lines 130-132): only flips the status. -/
def dcOnClose (s : AppState) : AppState :=
  { s with status := .disconnected }

/-- `cleanup` (lines 255-285): cancel the animation frame, stop the mic
tracks, close the data channel and the peer connection, remove the audio
element, drop the analyser, reset `inputVolume` and `isAiSpeaking`. -/
def cleanup (s : AppState) : AppState :=
  { s with animFrameRef := false, streamRef := false, dcRef := false,
           pcRef := false, audioElRef := false, analyserRef := false,
           inputVolume := 0, isAiSpeaking := false }

/-- `disconnect` (lines 287-290): `cleanup` then status `disconnected`. -/
def disconnect (s : AppState) : AppState :=
  { cleanup s with status := .disconnected }

/-- The `catch` block of `connect` (lines 158-163): surface the error
message, revert status to `disconnected`, then `cleanup`. -/
def connectCatch (msg : String) (s : AppState) : AppState :=
  cleanup { s with error := some msg, status := .disconnected }

/-- Apply a list of inbound events in arrival order. -/
def applyEvents (now : Nat) (events : List RTEvent) (s : AppState) :
    AppState :=
  events.foldl (fun st e => handleRealtimeEvent now e st) s

/-- All transport/device resources are released. -/
def resourcesReleased (s : AppState) : Prop :=
  s.animFrameRef = false ∧ s.streamRef = false ∧ s.dcRef = false ∧
  s.pcRef = false ∧ s.audioElRef = false ∧ s.analyserRef = false

instance (s : AppState) : Decidable (resourcesReleased s) := by
  unfold resourcesReleased; infer_instance

/-! ### Invariants -/

/-- No two messages in the list share an id. -/
def uniqueIds (msgs : List Message) : Prop :=
  (msgs.map (fun m => m.id)).Nodup

/-- Every in-flight accumulator key already names a message: true in every
state the component can actually reach (a delta both seeds the accumulator
and upserts the message; a done event deletes the key; nothing ever
removes a message). -/
def accumCovered (s : AppState) : Prop :=
  ∀ k, mapGet s.partialTranscripts k ≠ none → ∃ m ∈ s.messages, m.id = k

/-- The `useState` initial values of the component. -/
def initialState : AppState :=
  { status := .disconnected, messages := [], isAiSpeaking := false,
    error := none, inputVolume := 0, pcRef := false, dcRef := false,
    audioElRef := false, streamRef := false, analyserRef := false,
    animFrameRef := false, partialTranscripts := [] }

instance (msgs : List Message) : Decidable (uniqueIds msgs) := by
  unfold uniqueIds; infer_instance

/-- A fully connected state with every resource held: used to exhibit the
divergences around error handling. -/
def connectedState : AppState :=
  { status := .connected, messages := [], isAiSpeaking := false,
    error := none, inputVolume := 3, pcRef := true, dcRef := true,
    audioElRef := true, streamRef := true, analyserRef := true,
    animFrameRef := true, partialTranscripts := [] }

/-- A state holding one finalized assistant message and an empty
accumulator, as left behind by an assistant-transcript-final event. -/
def finalizedState : AppState :=
  { initialState with
      messages := [{ id := "a1", role := .assistant, text := "Hello there",
                     timestamp := 3 }] }

/-- A state with one in-flight assistant message and its accumulator. -/
def inFlightState : AppState :=
  { initialState with
      messages := [{ id := "a1", role := .assistant, text := "He",
                     timestamp := 3 }],
      partialTranscripts := [("a1", "He")] }

/-! ### Helper lemmas about the Map model -/

theorem mapGet_nil (k : String) : mapGet [] k = none := rfl

theorem mapGet_cons (p : String × String) (m : List (String × String))
    (k : String) :
    mapGet (p :: m) k = if p.1 = k then some p.2 else mapGet m k := by
  by_cases h : p.1 = k
  · unfold mapGet
    rw [List.find?_cons_of_pos _ (by simpa using h)]
    simp [h]
  · unfold mapGet
    rw [List.find?_cons_of_neg _ (by simpa using h)]
    simp [h]

theorem mapGet_append (m₁ m₂ : List (String × String)) (k : String) :
    mapGet (m₁ ++ m₂) k = (mapGet m₁ k).or (mapGet m₂ k) := by
  unfold mapGet
  rw [List.find?_append]
  rcases h : m₁.find? (fun p => p.1 == k) with _ | p <;> simp [h]

theorem mapGet_eq_none_of_any_false (m : List (String × String))
    (k : String) (h : m.any (fun p => p.1 == k) = false) :
    mapGet m k = none := by
  induction m with
  | nil => rfl
  | cons p rest ih =>
      simp only [List.any_cons, Bool.or_eq_false_iff] at h
      rw [mapGet_cons]
      simp only [show ¬ p.1 = k by simpa using h.1, if_false]
      exact ih h.2

theorem mapGet_map_setfun_self (m : List (String × String)) (k v : String)
    (hany : m.any (fun p => p.1 == k) = true) :
    mapGet (m.map (fun p => if p.1 == k then (k, v) else p)) k = some v := by
  induction m with
  | nil => simp at hany
  | cons p rest ih =>
      by_cases h : p.1 = k
      · rw [List.map_cons, if_pos (by simpa using h), mapGet_cons]
        simp
      · have hrest : rest.any (fun p => p.1 == k) = true := by
          simp only [List.any_cons] at hany
          rcases Bool.or_eq_true_iff.mp hany with h1 | h1
          · exact absurd (by simpa using h1) h
          · exact h1
        rw [List.map_cons, if_neg (by simpa using h), mapGet_cons]
        simp only [h, if_false]
        exact ih hrest

theorem mapGet_map_setfun_ne (m : List (String × String)) (k v k' : String)
    (h : k' ≠ k) :
    mapGet (m.map (fun p => if p.1 == k then (k, v) else p)) k'
      = mapGet m k' := by
  induction m with
  | nil => rfl
  | cons p rest ih =>
      by_cases hp : p.1 = k
      · rw [List.map_cons, if_pos (by simpa using hp), mapGet_cons,
            mapGet_cons]
        simp only [show ¬ (k, v).1 = k' by simpa using fun e => h e.symm,
          if_false, show ¬ p.1 = k' by rw [hp]; exact fun e => h e.symm,
          if_false]
        exact ih
      · rw [List.map_cons, if_neg (by simpa using hp), mapGet_cons,
            mapGet_cons]
        by_cases hp' : p.1 = k'
        · simp [hp']
        · simp only [hp', if_false]
          exact ih

theorem mapGet_mapSet_self (m : List (String × String)) (k v : String) :
    mapGet (mapSet m k v) k = some v := by
  unfold mapSet
  by_cases hany : m.any (fun p => p.1 == k) = true
  · rw [if_pos hany]
    exact mapGet_map_setfun_self m k v hany
  · rw [if_neg hany, mapGet_append,
        mapGet_eq_none_of_any_false m k (Bool.eq_false_iff.mpr hany),
        mapGet_cons]
    simp

theorem mapGet_mapSet_ne (m : List (String × String)) (k v k' : String)
    (h : k' ≠ k) : mapGet (mapSet m k v) k' = mapGet m k' := by
  unfold mapSet
  by_cases hany : m.any (fun p => p.1 == k) = true
  · rw [if_pos hany]
    exact mapGet_map_setfun_ne m k v k' h
  · rw [if_neg hany, mapGet_append, mapGet_cons, mapGet_nil]
    simp only [show ¬ k = k' from fun e => h e.symm, if_false]
    rcases hg : mapGet m k' with _ | v' <;> simp

theorem mapGet_mapDelete_self (m : List (String × String)) (k : String) :
    mapGet (mapDelete m k) k = none := by
  induction m with
  | nil => rfl
  | cons p rest ih =>
      unfold mapDelete
      by_cases h : p.1 = k
      · rw [List.filter_cons_of_neg (by simpa using h)]
        exact ih
      · rw [List.filter_cons_of_pos (by simpa using h), mapGet_cons]
        simp only [h, if_false]
        exact ih

theorem mapGet_mapDelete_ne (m : List (String × String)) (k k' : String)
    (h : k' ≠ k) : mapGet (mapDelete m k) k' = mapGet m k' := by
  induction m with
  | nil => rfl
  | cons p rest ih =>
      unfold mapDelete
      by_cases hp : p.1 = k
      · rw [List.filter_cons_of_neg (by simpa using hp), mapGet_cons]
        simp only [show ¬ p.1 = k' by rw [hp]; exact fun e => h e.symm,
          if_false]
        exact ih
      · rw [List.filter_cons_of_pos (by simpa using hp), mapGet_cons,
            mapGet_cons]
        by_cases hp' : p.1 = k'
        · simp [hp']
        · simp only [hp', if_false]
          exact ih

/-! ### Helper lemmas about `updateFirst` -/

theorem updateFirst_skeleton (l : List Message) (i t : String) :
    (updateFirst l i t).map (fun m => (m.id, m.role, m.timestamp))
      = l.map (fun m => (m.id, m.role, m.timestamp)) := by
  induction l with
  | nil => rfl
  | cons m rest ih =>
      by_cases h : m.id = i
      · simp [updateFirst, h]
      · simp [updateFirst, h, ih]

theorem updateFirst_ids (l : List Message) (i t : String) :
    (updateFirst l i t).map (fun m => m.id) = l.map (fun m => m.id) := by
  induction l with
  | nil => rfl
  | cons m rest ih =>
      by_cases h : m.id = i
      · simp [updateFirst, h]
      · simp [updateFirst, h, ih]

theorem updateFirst_append_of_fresh (pre : List Message) (m : Message)
    (post : List Message) (i t : String)
    (hpre : ∀ x ∈ pre, x.id ≠ i) (hm : m.id = i) :
    updateFirst (pre ++ m :: post) i t
      = pre ++ { m with text := t } :: post := by
  induction pre with
  | nil => simp [updateFirst, hm]
  | cons x rest ih =>
      have hx : x.id ≠ i := hpre x (by simp)
      have hrest : ∀ y ∈ rest, y.id ≠ i := fun y hy => hpre y (by simp [hy])
      simp [updateFirst, hx, ih hrest]

theorem filter_updateFirst_text (l : List Message) (i t : String)
    (hcount : l.countP (fun m => m.id == i) ≤ 1)
    (hany : l.any (fun m => m.id == i) = true) :
    ((updateFirst l i t).filter (fun m => m.id == i)).map (fun m => m.text)
      = [t] := by
  induction l with
  | nil => simp at hany
  | cons m rest ih =>
      by_cases h : m.id = i
      · have hrest0 : rest.countP (fun m => m.id == i) = 0 := by
          rw [List.countP_cons] at hcount
          simp only [h, beq_self_eq_true, if_pos] at hcount
          omega
        have hfil : rest.filter (fun m => m.id == i) = [] := by
          rw [List.filter_eq_nil_iff]
          intro a ha
          have := (List.countP_eq_zero.mp hrest0) a ha
          simpa using this
        simp [updateFirst, h, hfil]
      · have hany' : rest.any (fun m => m.id == i) = true := by
          simp only [List.any_cons] at hany
          rcases Bool.or_eq_true_iff.mp hany with h1 | h1
          · exact absurd (by simpa using h1) h
          · exact h1
        have hcount' : rest.countP (fun m => m.id == i) ≤ 1 := by
          rw [List.countP_cons] at hcount
          omega
        simp [updateFirst, h, ih hcount' hany']

theorem countP_updateFirst (l : List Message) (i t i' : String) :
    (updateFirst l i t).countP (fun m => m.id == i')
      = l.countP (fun m => m.id == i') := by
  induction l with
  | nil => rfl
  | cons m rest ih =>
      by_cases h : m.id = i
      · simp [updateFirst, h, List.countP_cons]
      · simp [updateFirst, h, List.countP_cons, ih]

/-! ### Branch characterizations of the reducer -/

theorem handle_delta_messages (now : Nat) (itemId delta : String)
    (s : AppState) :
    (handleRealtimeEvent now (.audioTranscriptDelta itemId delta) s).messages
      = if s.messages.any (fun m => m.id == itemId) then
          updateFirst s.messages itemId
            ((mapGet s.partialTranscripts itemId).getD "" ++ delta)
        else
          s.messages ++
            [{ id := itemId, role := .assistant,
               text := (mapGet s.partialTranscripts itemId).getD "" ++ delta,
               timestamp := now }] := rfl

theorem handle_delta_accum (now : Nat) (itemId delta : String)
    (s : AppState) :
    (handleRealtimeEvent now
        (.audioTranscriptDelta itemId delta) s).partialTranscripts
      = mapSet s.partialTranscripts itemId
          ((mapGet s.partialTranscripts itemId).getD "" ++ delta) := rfl

theorem handle_done_messages (now : Nat) (itemId transcript : String)
    (s : AppState) :
    (handleRealtimeEvent now
        (.audioTranscriptDone itemId transcript) s).messages
      = if s.messages.any (fun m => m.id == itemId) then
          updateFirst s.messages itemId transcript
        else
          s.messages ++
            [{ id := itemId, role := .assistant, text := transcript,
               timestamp := now }] := rfl

theorem handle_done_accum (now : Nat) (itemId transcript : String)
    (s : AppState) :
    (handleRealtimeEvent now
        (.audioTranscriptDone itemId transcript) s).partialTranscripts
      = mapDelete s.partialTranscripts itemId := rfl

theorem handle_user (now : Nat) (itemId transcript : String)
    (s : AppState) :
    handleRealtimeEvent now
        (.inputTranscriptionCompleted itemId transcript) s
      = if jsTrim transcript == "" then s
        else
          { s with messages :=
              s.messages ++
                [{ id := itemId, role := .user, text := jsTrim transcript,
                   timestamp := now }] } := rfl

theorem exists_id_updateFirst (l : List Message) (i t k : String) :
    (∃ m ∈ updateFirst l i t, m.id = k) ↔ ∃ m ∈ l, m.id = k := by
  have h1 : k ∈ (updateFirst l i t).map (fun m => m.id)
      ↔ k ∈ l.map (fun m => m.id) := by rw [updateFirst_ids]
  simpa [List.mem_map] using h1

theorem accumCovered_initial : accumCovered initialState := by
  intro k hk
  simp [initialState, mapGet] at hk

theorem accumCovered_handleRealtimeEvent (now : Nat) (e : RTEvent)
    (s : AppState) (h : accumCovered s) :
    accumCovered (handleRealtimeEvent now e s) := by
  cases e with
  | audioTranscriptDelta itemId delta =>
      intro k hk
      rw [handle_delta_accum] at hk
      rw [handle_delta_messages]
      by_cases hkid : k = itemId
      · subst hkid
        by_cases hany : s.messages.any (fun m => m.id == k) = true
        · rw [if_pos hany]
          rcases List.any_eq_true.mp hany with ⟨m, hm, hmk⟩
          exact (exists_id_updateFirst _ _ _ _).mpr
            ⟨m, hm, by simpa using hmk⟩
        · rw [if_neg hany]
          exact ⟨{ id := k, role := .assistant,
                   text := (mapGet s.partialTranscripts k).getD "" ++ delta,
                   timestamp := now },
                 List.mem_append_right _ (by simp), rfl⟩
      · rw [mapGet_mapSet_ne _ _ _ _ hkid] at hk
        rcases h k hk with ⟨m, hm, hmk⟩
        by_cases hany : s.messages.any (fun m => m.id == itemId) = true
        · rw [if_pos hany]
          exact (exists_id_updateFirst _ _ _ _).mpr ⟨m, hm, hmk⟩
        · rw [if_neg hany]
          exact ⟨m, List.mem_append_left _ hm, hmk⟩
  | audioTranscriptDone itemId transcript =>
      intro k hk
      rw [handle_done_accum] at hk
      rw [handle_done_messages]
      by_cases hkid : k = itemId
      · subst hkid
        rw [mapGet_mapDelete_self] at hk
        exact absurd rfl hk
      · rw [mapGet_mapDelete_ne _ _ _ hkid] at hk
        rcases h k hk with ⟨m, hm, hmk⟩
        by_cases hany : s.messages.any (fun m => m.id == itemId) = true
        · rw [if_pos hany]
          exact (exists_id_updateFirst _ _ _ _).mpr ⟨m, hm, hmk⟩
        · rw [if_neg hany]
          exact ⟨m, List.mem_append_left _ hm, hmk⟩
  | inputTranscriptionCompleted itemId transcript =>
      intro k hk
      rw [handle_user] at hk ⊢
      by_cases ht : jsTrim transcript == ""
      · rw [if_pos ht] at hk ⊢
        exact h k hk
      · rw [if_neg ht] at hk ⊢
        rcases h k hk with ⟨m, hm, hmk⟩
        exact ⟨m, List.mem_append_left _ hm, hmk⟩
  | audioDone => exact h
  | errorEvent message => exact h
  | otherEvent ty => exact h

theorem accumCovered_teardown (s : AppState) (h : accumCovered s) :
    accumCovered (cleanup s) ∧ accumCovered (disconnect s)
      ∧ accumCovered (dcOnClose s)
      ∧ ∀ msg, accumCovered (connectCatch msg s) :=
  ⟨h, h, h, fun _ => h⟩

/-! ### Claim theorems -/

/-- C8: a user-transcript-final event with an empty or whitespace-only
payload leaves the state (in particular the message list) unchanged; with
a non-empty payload it appends exactly one new Message after all prior
messages, with role `user` and text equal to the trimmed payload. -/
theorem c8_user_final_append (now : Nat) (s : AppState)
    (itemId transcript : String) :
    handleRealtimeEvent now
        (.inputTranscriptionCompleted itemId transcript) s
      = if jsTrim transcript = "" then s
        else
          { s with messages :=
              s.messages ++
                [{ id := itemId, role := .user, text := jsTrim transcript,
                   timestamp := now }] } := by
  rw [handle_user]
  by_cases h : jsTrim transcript = ""
  · rw [if_pos (by simpa using h), if_pos h]
  · rw [if_neg (by simpa using h), if_neg h]

/-- C9: `disconnect()` is idempotent, unconditionally releases every
resource (volume loop, capture tracks, message channel, peer connection,
audio sink, analyser), sets status to `disconnected`, resets
`inputVolume` to 0 and `isAiSpeaking` to `false`, and is safe to call in
any state, including an already-disconnected one. -/
theorem c9_disconnect_idempotent (s : AppState) :
    disconnect (disconnect s) = disconnect s
  ∧ resourcesReleased (disconnect s)
  ∧ (disconnect s).status = .disconnected
  ∧ (disconnect s).inputVolume = 0
  ∧ (disconnect s).isAiSpeaking = false :=
  ⟨rfl, ⟨rfl, rfl, rfl, rfl, rfl, rfl⟩, rfl, rfl, rfl⟩

/-- C6 counterexample: the claim also demands `isAssistantSpeaking = true`
immediately after an audio-start signal, but the reducer has no case for
any audio-start event type, so such a signal falls through the `switch`
and leaves the flag unchanged (here: still `false`). -/
theorem c6_counterexample :
    (handleRealtimeEvent 0 (.otherEvent "output_audio_buffer.started")
        initialState).isAiSpeaking = false := rfl

/-- C6 amended: `isAssistantSpeaking` is true immediately after any
assistant-transcript-fragment event, false immediately after any
assistant-transcript-final or assistant-audio-finished event, and never
left true after teardown (`cleanup`/`disconnect` force it to false); an
audio-start signal is unrecognized and leaves the flag unchanged. -/
theorem c6_amended_speaking_flag (now : Nat) (s : AppState)
    (itemId delta transcript ty : String) :
    (handleRealtimeEvent now
        (.audioTranscriptDelta itemId delta) s).isAiSpeaking = true
  ∧ (handleRealtimeEvent now
        (.audioTranscriptDone itemId transcript) s).isAiSpeaking = false
  ∧ (handleRealtimeEvent now .audioDone s).isAiSpeaking = false
  ∧ (handleRealtimeEvent now (.otherEvent ty) s).isAiSpeaking
      = s.isAiSpeaking
  ∧ (cleanup s).isAiSpeaking = false
  ∧ (disconnect s).isAiSpeaking = false :=
  ⟨rfl, rfl, rfl, rfl, rfl, rfl⟩

/-- C4 counterexample: an inbound payload that is not valid JSON is not
silently ignored — `JSON.parse` in `dc.onmessage` throws (uncaught), so
an error IS raised, contradicting the claim for malformed payloads. -/
theorem c4_counterexample :
    dcOnMessage 0 none initialState
      = Except.error "SyntaxError: Unexpected token in JSON" := rfl

/-- C4 amended: a well-formed payload of unrecognized kind leaves the
entire state unchanged and raises no error; a malformed (unparseable)
payload leaves the state unchanged too, but the parse exception escapes
the message callback uncaught. -/
theorem c4_amended_unrecognized_ignored (now : Nat) (ty : String)
    (s : AppState) :
    handleRealtimeEvent now (.otherEvent ty) s = s
  ∧ dcOnMessage now (some (.otherEvent ty)) s = .ok s
  ∧ dcOnMessage now none s
      = .error "SyntaxError: Unexpected token in JSON" :=
  ⟨rfl, rfl, rfl⟩

/-- C5 counterexample: a remote-error event does NOT revert status to
`disconnected` and does NOT release resources (the capture stream is
still held), and a channel close does NOT release the capture stream nor
surface any message — contradicting the claim for `RemoteReportedError`
and `ChannelError`. -/
theorem c5_counterexample :
    (handleRealtimeEvent 0 (.errorEvent (some "boom"))
        connectedState).status = .connected
  ∧ (handleRealtimeEvent 0 (.errorEvent (some "boom"))
        connectedState).streamRef = true
  ∧ (dcOnClose connectedState).streamRef = true
  ∧ (dcOnClose connectedState).error = none :=
  ⟨rfl, rfl, rfl, rfl⟩

/-- C5 amended: only the connect-phase errors (CredentialError,
MediaAccessError, SignalingError — all funneled through the `catch`
block) revert status, release every resource and surface one message.
ChannelError (`dc.onclose`) only reverts status: resources and the error
field are untouched. RemoteReportedError (an `error` event) only surfaces
a message: status and resources are untouched. -/
theorem c5_amended_error_handling (s : AppState) (msg : String)
    (now : Nat) (emsg : String) :
    ((connectCatch msg s).status = .disconnected
      ∧ resourcesReleased (connectCatch msg s)
      ∧ (connectCatch msg s).error = some msg)
  ∧ ((dcOnClose s).status = .disconnected
      ∧ (dcOnClose s).streamRef = s.streamRef
      ∧ (dcOnClose s).pcRef = s.pcRef
      ∧ (dcOnClose s).dcRef = s.dcRef
      ∧ (dcOnClose s).audioElRef = s.audioElRef
      ∧ (dcOnClose s).animFrameRef = s.animFrameRef
      ∧ (dcOnClose s).error = s.error)
  ∧ ((handleRealtimeEvent now (.errorEvent (some emsg)) s).status
        = s.status
      ∧ (handleRealtimeEvent now (.errorEvent (some emsg)) s).streamRef
          = s.streamRef
      ∧ (handleRealtimeEvent now (.errorEvent (some emsg)) s).pcRef
          = s.pcRef
      ∧ (handleRealtimeEvent now (.errorEvent (some emsg)) s).error
          = some (if emsg == "" then "An error occurred" else emsg)) :=
  ⟨⟨rfl, ⟨rfl, rfl, rfl, rfl, rfl, rfl⟩, rfl⟩,
   ⟨rfl, rfl, rfl, rfl, rfl, rfl, rfl⟩,
   ⟨rfl, rfl, rfl, rfl⟩⟩

/-- C7: upserting by an assistant delta or final event replaces only the
text of the (first) existing Message with that id, preserving its
position, id, role and original timestamp and leaving every other Message
unchanged; when no Message has that id, a new Message is appended at the
end with the freshly captured timestamp `now`. -/
theorem c7_upsert_frame (now : Nat) (s : AppState)
    (itemId delta transcript : String) :
    (∀ pre m post, s.messages = pre ++ m :: post → m.id = itemId →
        (∀ x ∈ pre, x.id ≠ itemId) →
        ((handleRealtimeEvent now
              (.audioTranscriptDelta itemId delta) s).messages
            = pre ++ { m with text :=
                (mapGet s.partialTranscripts itemId).getD "" ++ delta }
              :: post
          ∧ (handleRealtimeEvent now
              (.audioTranscriptDone itemId transcript) s).messages
            = pre ++ { m with text := transcript } :: post))
  ∧ ((∀ x ∈ s.messages, x.id ≠ itemId) →
      ((handleRealtimeEvent now
            (.audioTranscriptDelta itemId delta) s).messages
          = s.messages ++
              [{ id := itemId, role := Role.assistant,
                 text := (mapGet s.partialTranscripts itemId).getD ""
                   ++ delta,
                 timestamp := now }]
        ∧ (handleRealtimeEvent now
            (.audioTranscriptDone itemId transcript) s).messages
          = s.messages ++
              [{ id := itemId, role := Role.assistant, text := transcript,
                 timestamp := now }])) := by
  constructor
  · intro pre m post hdecomp hid hpre
    have hany : s.messages.any (fun x => x.id == itemId) = true := by
      rw [hdecomp]
      exact List.any_eq_true.mpr
        ⟨m, by simp, by simpa using hid⟩
    constructor
    · rw [handle_delta_messages, if_pos hany, hdecomp]
      exact updateFirst_append_of_fresh pre m post itemId _ hpre hid
    · rw [handle_done_messages, if_pos hany, hdecomp]
      exact updateFirst_append_of_fresh pre m post itemId _ hpre hid
  · intro hfresh
    have hany : ¬ s.messages.any (fun x => x.id == itemId) = true := by
      rw [Bool.not_eq_true, List.any_eq_false]
      intro x hx
      simpa using hfresh x hx
    exact ⟨by rw [handle_delta_messages, if_neg hany],
           by rw [handle_done_messages, if_neg hany]⟩

/-- Witness for C7 at a concrete one-message state: the delta replaces
only the text (id, role, timestamp and position preserved), and so does
the final event. -/
theorem c7_witness :
    (handleRealtimeEvent 9 (.audioTranscriptDelta "a1" "?!")
        finalizedState).messages
      = [{ id := "a1", role := Role.assistant, text := "?!",
           timestamp := 3 }]
  ∧ (handleRealtimeEvent 9 (.audioTranscriptDone "a1" "full")
        finalizedState).messages
      = [{ id := "a1", role := Role.assistant, text := "full",
           timestamp := 3 }] := by
  have h := (c7_upsert_frame 9 finalizedState "a1" "?!" "full").1 []
    { id := "a1", role := Role.assistant, text := "Hello there",
      timestamp := 3 } [] rfl rfl (by simp)
  exact ⟨by simpa using h.1, by simpa using h.2⟩

/-- C10: when a Message with the id exists but the accumulator holds no
entry for it (the situation after an assistant-transcript-final), a new
fragment replaces that Message's text with the delta alone — accumulation
restarts from the empty string, discarding the finalized text. -/
theorem c10_fragment_after_final (now : Nat) (s : AppState)
    (itemId delta : String) (pre post : List Message) (m : Message)
    (hmsgs : s.messages = pre ++ m :: post) (hid : m.id = itemId)
    (hpre : ∀ x ∈ pre, x.id ≠ itemId)
    (hacc : mapGet s.partialTranscripts itemId = none) :
    (handleRealtimeEvent now
        (.audioTranscriptDelta itemId delta) s).messages
      = pre ++ { m with text := delta } :: post
  ∧ mapGet (handleRealtimeEvent now
        (.audioTranscriptDelta itemId delta) s).partialTranscripts itemId
      = some delta := by
  have hany : s.messages.any (fun x => x.id == itemId) = true := by
    rw [hmsgs]
    exact List.any_eq_true.mpr ⟨m, by simp, by simpa using hid⟩
  constructor
  · rw [handle_delta_messages, if_pos hany, hacc, hmsgs]
    exact updateFirst_append_of_fresh pre m post itemId _ hpre hid
  · rw [handle_delta_accum, hacc]
    exact mapGet_mapSet_self _ _ _

/-- Witness for C10: a fragment arriving for the finalized id "a1"
replaces "Hello there" with the delta alone and reseeds the
accumulator. -/
theorem c10_witness :
    (handleRealtimeEvent 9 (.audioTranscriptDelta "a1" "?!")
        finalizedState).messages
      = [{ id := "a1", role := Role.assistant, text := "?!",
           timestamp := 3 }]
  ∧ mapGet (handleRealtimeEvent 9 (.audioTranscriptDelta "a1" "?!")
        finalizedState).partialTranscripts "a1" = some "?!" := by
  have h := c10_fragment_after_final 9 finalizedState "a1" "?!" []
    [] { id := "a1", role := Role.assistant, text := "Hello there",
         timestamp := 3 } rfl rfl (by simp) rfl
  exact ⟨by simpa using h.1, h.2⟩

/-- C2: an assistant-transcript-final event yields exactly one Message
with the event's id whose text is the final payload verbatim (never the
concatenation of accumulated fragments), removes that id's accumulator
entry, and sets the speaking flag to false.  (Stated for states
respecting the at-most-one-Message-per-id invariant.) -/
theorem c2_final_authoritative (now : Nat) (s : AppState)
    (itemId transcript : String)
    (h : s.messages.countP (fun m => m.id == itemId) ≤ 1) :
    (((handleRealtimeEvent now (.audioTranscriptDone itemId transcript)
        s).messages.filter (fun m => m.id == itemId)).map
          (fun m => m.text))
      = [transcript]
  ∧ mapGet (handleRealtimeEvent now
        (.audioTranscriptDone itemId transcript) s).partialTranscripts
        itemId
      = none
  ∧ (handleRealtimeEvent now
        (.audioTranscriptDone itemId transcript) s).isAiSpeaking
      = false := by
  refine ⟨?_, ?_, rfl⟩
  · rw [handle_done_messages]
    by_cases hany : s.messages.any (fun m => m.id == itemId) = true
    · rw [if_pos hany]
      exact filter_updateFirst_text s.messages itemId transcript h hany
    · rw [if_neg hany]
      have hnone : ∀ x ∈ s.messages, ¬ ((x.id == itemId) = true) :=
        List.any_eq_false.mp (Bool.eq_false_iff.mpr hany)
      rw [List.filter_append, List.filter_eq_nil_iff.mpr hnone]
      simp
  · rw [handle_done_accum]
    exact mapGet_mapDelete_self _ _

/-- Witness for C2: the final event replaces the in-flight text "He"
with the payload "Hello there" verbatim, clears the accumulator entry
and resets the speaking flag. -/
theorem c2_witness :
    (((handleRealtimeEvent 9 (.audioTranscriptDone "a1" "Hello there")
        inFlightState).messages.filter (fun m => m.id == "a1")).map
          (fun m => m.text))
      = ["Hello there"]
  ∧ mapGet (handleRealtimeEvent 9
        (.audioTranscriptDone "a1" "Hello there")
        inFlightState).partialTranscripts "a1"
      = none
  ∧ (handleRealtimeEvent 9 (.audioTranscriptDone "a1" "Hello there")
        inFlightState).isAiSpeaking
      = false :=
  c2_final_authoritative 9 inFlightState "a1" "Hello there" (by decide)

/-- C3 counterexample: a user-transcript-final event whose id already
names an existing Message appends a second Message with the same id (the
user branch never checks for an existing id), so the no-duplicate-ids
invariant is NOT preserved by every event. -/
theorem c3_counterexample :
    uniqueIds ({ initialState with
        messages := [{ id := "u1", role := Role.user, text := "hi",
                       timestamp := 0 }] } : AppState).messages
  ∧ ¬ uniqueIds ((handleRealtimeEvent 0
        (.inputTranscriptionCompleted "u1" "again")
        { initialState with
            messages := [{ id := "u1", role := Role.user, text := "hi",
                           timestamp := 0 }] }).messages)
  ∧ ((handleRealtimeEvent 0 (.inputTranscriptionCompleted "u1" "again")
        { initialState with
            messages := [{ id := "u1", role := Role.user, text := "hi",
                           timestamp := 0 }] }).messages.countP
      (fun m => m.id == "u1")) = 2 := by
  refine ⟨by decide, by decide, by decide⟩

/-- C3 amended: the at-most-one-Message-per-id invariant is preserved by
every event EXCEPT a user-transcript-final whose non-blank payload
carries an id that already names a Message (that branch appends
unconditionally); assistant fragment/final events for an existing id
mutate that Message's text in place — id, role, timestamp and list
positions are all unchanged — rather than appending a new entry. -/
theorem c3_amended_unique_ids (now : Nat) (e : RTEvent) (s : AppState)
    (h : uniqueIds s.messages)
    (huser : ∀ itemId t, e = .inputTranscriptionCompleted itemId t →
        jsTrim t ≠ "" → ∀ m ∈ s.messages, m.id ≠ itemId) :
    uniqueIds (handleRealtimeEvent now e s).messages
  ∧ (∀ itemId delta, e = .audioTranscriptDelta itemId delta →
      s.messages.any (fun m => m.id == itemId) = true →
      (handleRealtimeEvent now e s).messages.map
          (fun m => (m.id, m.role, m.timestamp))
        = s.messages.map (fun m => (m.id, m.role, m.timestamp)))
  ∧ (∀ itemId t, e = .audioTranscriptDone itemId t →
      s.messages.any (fun m => m.id == itemId) = true →
      (handleRealtimeEvent now e s).messages.map
          (fun m => (m.id, m.role, m.timestamp))
        = s.messages.map (fun m => (m.id, m.role, m.timestamp))) := by
  refine ⟨?_, ?_, ?_⟩
  · cases e with
    | audioTranscriptDelta itemId delta =>
        rw [uniqueIds, handle_delta_messages]
        by_cases hany : s.messages.any (fun m => m.id == itemId) = true
        · rw [if_pos hany, updateFirst_ids]
          exact h
        · rw [if_neg hany, List.map_append]
          have hx : ∀ x ∈ s.messages, ¬ x.id = itemId := fun m hm => by
            have := List.any_eq_false.mp (Bool.eq_false_iff.mpr hany) m hm
            simpa using this
          simpa [List.nodup_append] using ⟨h, hx⟩
    | audioTranscriptDone itemId transcript =>
        rw [uniqueIds, handle_done_messages]
        by_cases hany : s.messages.any (fun m => m.id == itemId) = true
        · rw [if_pos hany, updateFirst_ids]
          exact h
        · rw [if_neg hany, List.map_append]
          have hx : ∀ x ∈ s.messages, ¬ x.id = itemId := fun m hm => by
            have := List.any_eq_false.mp (Bool.eq_false_iff.mpr hany) m hm
            simpa using this
          simpa [List.nodup_append] using ⟨h, hx⟩
    | inputTranscriptionCompleted itemId transcript =>
        rw [uniqueIds, handle_user]
        by_cases ht : jsTrim transcript == ""
        · rw [if_pos ht]
          exact h
        · rw [if_neg ht]
          have hfresh := huser itemId transcript rfl (by simpa using ht)
          simpa [List.nodup_append] using ⟨h, hfresh⟩
    | audioDone => exact h
    | errorEvent message => exact h
    | otherEvent ty => exact h
  · intro itemId delta he hany
    subst he
    rw [handle_delta_messages, if_pos hany]
    exact updateFirst_skeleton _ _ _
  · intro itemId t he hany
    subst he
    rw [handle_done_messages, if_pos hany]
    exact updateFirst_skeleton _ _ _

/-- Witness for C3 at a concrete state and event: a fragment for the
existing id "a1" keeps the id list duplicate-free and leaves ids, roles
and timestamps untouched. -/
theorem c3_witness :
    uniqueIds ((handleRealtimeEvent 5 (.audioTranscriptDelta "a1" "X")
        finalizedState).messages)
  ∧ ((handleRealtimeEvent 5 (.audioTranscriptDelta "a1" "X")
        finalizedState).messages.map
          (fun m => (m.id, m.role, m.timestamp)))
      = [("a1", Role.assistant, 3)] := by
  have h := c3_amended_unique_ids 5 (.audioTranscriptDelta "a1" "X")
    finalizedState (by decide)
    (fun itemId t he => absurd he (by simp))
  refine ⟨h.1, ?_⟩
  have h2 := h.2.1 "a1" "X" rfl (by decide)
  rw [h2]
  decide

/-- Accumulation invariant for a run of fragments on one id: once the
message for `itemId` sits at the end of the list with text `acc` and the
accumulator holds `acc`, every further fragment extends both in lock
step. -/
theorem applyDeltas_accumulate (now : Nat) (itemId : String)
    (pre : List Message) (ts : Nat)
    (hpre : ∀ m ∈ pre, m.id ≠ itemId) (ds : List String) (s : AppState)
    (acc : String)
    (hmsgs : s.messages = pre ++
      [{ id := itemId, role := Role.assistant, text := acc,
         timestamp := ts }])
    (hacc : mapGet s.partialTranscripts itemId = some acc) :
    (applyEvents now (ds.map (RTEvent.audioTranscriptDelta itemId))
        s).messages
      = pre ++
          [{ id := itemId, role := Role.assistant,
             text := ds.foldl (· ++ ·) acc, timestamp := ts }] := by
  induction ds generalizing s acc with
  | nil => simpa [applyEvents] using hmsgs
  | cons d rest ih =>
      have hany : s.messages.any (fun m => m.id == itemId) = true := by
        rw [hmsgs]
        exact List.any_eq_true.mpr
          ⟨{ id := itemId, role := Role.assistant, text := acc,
             timestamp := ts },
           List.mem_append_right _ (by simp), by simp⟩
      have hmsgs' : (handleRealtimeEvent now
          (.audioTranscriptDelta itemId d) s).messages
          = pre ++
              [{ id := itemId, role := Role.assistant, text := acc ++ d,
                 timestamp := ts }] := by
        rw [handle_delta_messages, if_pos hany, hacc, hmsgs]
        exact updateFirst_append_of_fresh pre _ [] itemId _ hpre rfl
      have hacc' : mapGet (handleRealtimeEvent now
          (.audioTranscriptDelta itemId d) s).partialTranscripts itemId
          = some (acc ++ d) := by
        rw [handle_delta_accum, hacc]
        exact mapGet_mapSet_self _ _ _
      have step := ih (handleRealtimeEvent now
        (.audioTranscriptDelta itemId d) s) (acc ++ d) hmsgs' hacc'
      simpa [applyEvents] using step

/-- C1: a nonempty run of assistant-transcript-fragment events sharing
one item id, applied in arrival order to a state with no Message under
that id, leaves exactly one Message with that id, role assistant, whose
text is the concatenation of all the deltas in arrival order.  (The
accumulator cannot hold the id either: in every reachable state its keys
are covered by the message list — `accumCovered`.) -/
theorem c1_fragments_concatenate (now : Nat) (itemId : String)
    (deltas : List String) (s : AppState)
    (hne : deltas ≠ [])
    (hfresh : ∀ m ∈ s.messages, m.id ≠ itemId)
    (hcov : accumCovered s) :
    ((applyEvents now (deltas.map (RTEvent.audioTranscriptDelta itemId))
        s).messages.filter (fun m => m.id == itemId))
      = [{ id := itemId, role := Role.assistant,
           text := String.join deltas, timestamp := now }] := by
  obtain ⟨d, rest, rfl⟩ : ∃ d rest, deltas = d :: rest := by
    cases deltas with
    | nil => exact absurd rfl hne
    | cons d r => exact ⟨d, r, rfl⟩
  have hacc0 : mapGet s.partialTranscripts itemId = none := by
    by_contra hg
    rcases hcov itemId hg with ⟨m, hm, hmk⟩
    exact hfresh m hm hmk
  have hany : ¬ s.messages.any (fun m => m.id == itemId) = true := by
    rw [Bool.not_eq_true, List.any_eq_false]
    intro m hm
    simpa using hfresh m hm
  have hmsgs1 : (handleRealtimeEvent now
      (.audioTranscriptDelta itemId d) s).messages
      = s.messages ++
          [{ id := itemId, role := Role.assistant, text := "" ++ d,
             timestamp := now }] := by
    rw [handle_delta_messages, if_neg hany, hacc0]
    rfl
  have hacc1 : mapGet (handleRealtimeEvent now
      (.audioTranscriptDelta itemId d) s).partialTranscripts itemId
      = some ("" ++ d) := by
    rw [handle_delta_accum, hacc0]
    exact mapGet_mapSet_self _ _ _
  have happ : (applyEvents now
      ((d :: rest).map (RTEvent.audioTranscriptDelta itemId)) s).messages
      = s.messages ++
          [{ id := itemId, role := Role.assistant,
             text := String.join (d :: rest), timestamp := now }] :=
    applyDeltas_accumulate now itemId s.messages now hfresh rest
      (handleRealtimeEvent now (.audioTranscriptDelta itemId d) s)
      ("" ++ d) hmsgs1 hacc1
  rw [happ, List.filter_append,
      List.filter_eq_nil_iff.mpr (fun a ha => by simpa using hfresh a ha)]
  simp

/-- Witness for C1: from the empty initial state, the fragments "Hel"
then "lo" for id "a1" build exactly one assistant message "Hello". -/
theorem c1_witness :
    ((applyEvents 7
        (["Hel", "lo"].map (RTEvent.audioTranscriptDelta "a1"))
        initialState).messages.filter (fun m => m.id == "a1"))
      = [{ id := "a1", role := Role.assistant, text := "Hello",
           timestamp := 7 }] := by
  have h := c1_fragments_concatenate 7 "a1" ["Hel", "lo"] initialState
    (by simp) (by simp [initialState]) accumCovered_initial
  simpa using h
